import Mathlib

/-!
Shallow embedding of the edge-descriptor builder library
(`src/schema/edge/edge.rs`, `src/schema/edge/annotation.rs`,
`src/schema/schema.rs`).

Rust types are modelled as Lean structures; the recursive
`Descriptor` (its `ref_` field holds an `Option<Box<Descriptor>>`)
is encoded as an inductive wrapping a non-recursive core structure,
with projections named after the Rust fields. Rust generic type
parameters `T` are modelled by the full type-name string that
`std::any::type_name::<T>()` would return. Builder methods that
consume and return the builder become pure functions.
`from` is a Lean keyword, so the source's `from` is rendered `from_`.
-/

namespace Rent

/-- Source `edge::Annotation` from `annotation.rs`: a single `struct_tag` field. -/
structure Annotation where
  struct_tag : String := ""
deriving Repr, DecidableEq

/-- Source `Merger::merge for Annotation` from `annotation.rs`:
the argument's `struct_tag` replaces the receiver's. -/
def Annotation.merge (_self other : Annotation) : Annotation :=
  { struct_tag := other.struct_tag }

/-- Source `StorageKey` from `edge.rs`. -/
structure StorageKey where
  table : String := ""
  symbols : List String := []
  columns : List String := []
deriving Repr, DecidableEq

/-- Source `DescriptorThrough` from `edge.rs`. -/
structure DescriptorThrough where
  name : String := ""
  type_ : String := ""
deriving Repr, DecidableEq

/-- All fields of `Descriptor` except the recursive `ref_`,
in source order, with the same `Default::default()` values. -/
structure DescriptorCore where
  tag : String := ""
  type_ : String := ""
  name : String := ""
  field : String := ""
  ref_name : String := ""
  through : Option DescriptorThrough := none
  unique : Bool := false
  inverse : Bool := false
  required : Bool := false
  immutable : Bool := false
  storage_key : Option StorageKey := none
  annotations : List Annotation := []
  comment : String := ""

/-- Source `Descriptor` from `edge.rs`: the core fields plus the recursive
`ref_ : Option<Box<Descriptor>>` field. -/
inductive Descriptor : Type where
  | mk (core : DescriptorCore) (ref_ : Option Descriptor) : Descriptor

def Descriptor.core : Descriptor → DescriptorCore
  | .mk c _ => c

def Descriptor.ref_ : Descriptor → Option Descriptor
  | .mk _ r => r

def Descriptor.tag (d : Descriptor) : String := d.core.tag

def Descriptor.type_ (d : Descriptor) : String := d.core.type_

def Descriptor.name (d : Descriptor) : String := d.core.name

def Descriptor.field (d : Descriptor) : String := d.core.field

def Descriptor.ref_name (d : Descriptor) : String := d.core.ref_name

def Descriptor.through (d : Descriptor) : Option DescriptorThrough := d.core.through

def Descriptor.unique (d : Descriptor) : Bool := d.core.unique

def Descriptor.inverse (d : Descriptor) : Bool := d.core.inverse

def Descriptor.required (d : Descriptor) : Bool := d.core.required

def Descriptor.immutable (d : Descriptor) : Bool := d.core.immutable

def Descriptor.storage_key (d : Descriptor) : Option StorageKey := d.core.storage_key

def Descriptor.annotations (d : Descriptor) : List Annotation := d.core.annotations

def Descriptor.comment (d : Descriptor) : String := d.core.comment

/-- Apply an update to the non-recursive fields, keeping `ref_`. -/
def Descriptor.map_core (f : DescriptorCore → DescriptorCore) : Descriptor → Descriptor
  | .mk c r => .mk (f c) r

/-- Source `typ::<T>()` from `edge.rs`:
`type_name::<T>().rsplit("::").next().unwrap()`,
i.e. the last `::`-separated segment of the full type name. -/
def typ (T : String) : String :=
  (T.splitOn "::").getLastD ""

/-- Source `StorageOption` from `edge.rs`: `Box<dyn Fn(&mut StorageKey)>`,
modelled as a pure update function. -/
def StorageOption : Type := StorageKey → StorageKey

/-- Source `table(name)` from `edge.rs`. -/
def table (name : String) : StorageOption :=
  fun key => { key with table := name }

/-- Source `symbol(symbol)` from `edge.rs`: single-element symbols list. -/
def symbol (s : String) : StorageOption :=
  fun key => { key with symbols := [s] }

/-- Source `symbols(to, from)` from `edge.rs`: two-element symbols list,
first the "To" edge's, second the "From" (inverse) edge's. -/
def symbols (to_ from_ : String) : StorageOption :=
  fun key => { key with symbols := [to_, from_] }

/-- Source `column(name)` from `edge.rs`: single-element columns list. -/
def column (name : String) : StorageOption :=
  fun key => { key with columns := [name] }

/-- Source `columns(to, from)` from `edge.rs`: two-element columns list,
first the "To" edge's, second the "From" (inverse) edge's. -/
def columns (to_ from_ : String) : StorageOption :=
  fun key => { key with columns := [to_, from_] }

/-- Source `AssocBuilder` from `edge.rs`. -/
structure AssocBuilder where
  desc : Descriptor

/-- Source `InverseBuilder` from `edge.rs`. -/
structure InverseBuilder where
  desc : Descriptor

/-- Source `to::<T>(name)` from `edge.rs` (`to` is a reserved token in this
Lean environment, hence the guillemet quoting). -/
def «to» (T : String) (name : String) : AssocBuilder :=
  { desc := .mk { name := name, type_ := typ T } none }

/-- The free function `from::<T>(name)` from `edge.rs`
(`from` is a Lean keyword). -/
def from_ (T : String) (name : String) : InverseBuilder :=
  { desc := .mk { name := name, type_ := typ T, inverse := true } none }

def AssocBuilder.unique (b : AssocBuilder) : AssocBuilder :=
  { desc := b.desc.map_core (fun c => { c with unique := true }) }

def AssocBuilder.required (b : AssocBuilder) : AssocBuilder :=
  { desc := b.desc.map_core (fun c => { c with required := true }) }

def AssocBuilder.immutable (b : AssocBuilder) : AssocBuilder :=
  { desc := b.desc.map_core (fun c => { c with immutable := true }) }

def AssocBuilder.struct_tag (b : AssocBuilder) (s : String) : AssocBuilder :=
  { desc := b.desc.map_core (fun c => { c with tag := s }) }

/-- Source `AssocBuilder::from(name)` from `edge.rs`: builds an inverse
descriptor with the given name, the association's type, `inverse`
set, and the association's descriptor captured as `ref_`;
every other field is `Default::default()`. -/
def AssocBuilder.from_ (b : AssocBuilder) (name : String) : InverseBuilder :=
  { desc := .mk { name := name, type_ := b.desc.type_, inverse := true } (some b.desc) }

def AssocBuilder.field (b : AssocBuilder) (f : String) : AssocBuilder :=
  { desc := b.desc.map_core (fun c => { c with field := f }) }

def AssocBuilder.through (b : AssocBuilder) (T : String) (name : String) : AssocBuilder :=
  { desc := b.desc.map_core (fun c => { c with through := some { name := name, type_ := typ T } }) }

def AssocBuilder.comment (b : AssocBuilder) (c : String) : AssocBuilder :=
  { desc := b.desc.map_core (fun cr => { cr with comment := c }) }

/-- The accumulator `AssocBuilder::storage_key` starts from: the
already-stored key if present, `StorageKey::default()` otherwise. -/
def AssocBuilder.start_key (b : AssocBuilder) : StorageKey :=
  match b.desc.storage_key with
  | some sk => sk
  | none => {}

/-- Source `AssocBuilder::storage_key(opts)` from `edge.rs`: folds the
options over the accumulated (or default) `StorageKey`. -/
def AssocBuilder.storage_key (b : AssocBuilder) (opts : List StorageOption) : AssocBuilder :=
  let sk := opts.foldl (fun k o => o k) b.start_key
  { desc := b.desc.map_core (fun c => { c with storage_key := some sk }) }

/-- Source `AssocBuilder::annotations` from `edge.rs`: `extend`, i.e. append. -/
def AssocBuilder.annotations (b : AssocBuilder) (l : List Annotation) : AssocBuilder :=
  { desc := b.desc.map_core (fun c => { c with annotations := DescriptorCore.annotations c ++ l }) }

def AssocBuilder.descriptor (b : AssocBuilder) : Descriptor := b.desc

/-- Source `InverseBuilder::ref_(ref_)` from `edge.rs`: sets `ref_name`. -/
def InverseBuilder.ref_ (b : InverseBuilder) (r : String) : InverseBuilder :=
  { desc := b.desc.map_core (fun c => { c with ref_name := r }) }

def InverseBuilder.unique (b : InverseBuilder) : InverseBuilder :=
  { desc := b.desc.map_core (fun c => { c with unique := true }) }

def InverseBuilder.required (b : InverseBuilder) : InverseBuilder :=
  { desc := b.desc.map_core (fun c => { c with required := true }) }

def InverseBuilder.immutable (b : InverseBuilder) : InverseBuilder :=
  { desc := b.desc.map_core (fun c => { c with immutable := true }) }

def InverseBuilder.struct_tag (b : InverseBuilder) (s : String) : InverseBuilder :=
  { desc := b.desc.map_core (fun c => { c with tag := s }) }

def InverseBuilder.comment (b : InverseBuilder) (c : String) : InverseBuilder :=
  { desc := b.desc.map_core (fun cr => { cr with comment := c }) }

def InverseBuilder.field (b : InverseBuilder) (f : String) : InverseBuilder :=
  { desc := b.desc.map_core (fun c => { c with field := f }) }

def InverseBuilder.through (b : InverseBuilder) (T : String) (name : String) : InverseBuilder :=
  { desc := b.desc.map_core (fun c => { c with through := some { name := name, type_ := typ T } }) }

/-- Source `InverseBuilder::annotations` from `edge.rs`: `extend`, i.e. append. -/
def InverseBuilder.annotations (b : InverseBuilder) (l : List Annotation) : InverseBuilder :=
  { desc := b.desc.map_core (fun c => { c with annotations := DescriptorCore.annotations c ++ l }) }

def InverseBuilder.descriptor (b : InverseBuilder) : Descriptor := b.desc

/-!
Quantification devices: to state "for every sequence of builder
configuration calls", configuration calls are reified as inductive
operation values, applied by a fold. `StorageOpt` is the tagged
representation of the five storage-option constructors, with
`StorageOpt.toOption` interpreting it as the source's closure.
-/

/-- Tagged form of the five `StorageOption` constructors. -/
inductive StorageOpt : Type where
  | table (name : String) : StorageOpt
  | symbol (s : String) : StorageOpt
  | symbols (to_ from_ : String) : StorageOpt
  | column (name : String) : StorageOpt
  | columns (to_ from_ : String) : StorageOpt
deriving Repr, DecidableEq

/-- Interpret a tagged storage option as the source's option closure. -/
def StorageOpt.toOption : StorageOpt → StorageOption
  | StorageOpt.table n => Rent.table n
  | StorageOpt.symbol s => Rent.symbol s
  | StorageOpt.symbols t f => Rent.symbols t f
  | StorageOpt.column n => Rent.column n
  | StorageOpt.columns t f => Rent.columns t f

/-- Whether the option writes the `table` field. -/
def StorageOpt.writes_table : StorageOpt → Bool
  | StorageOpt.table _ => true
  | _ => false

/-- Whether the option writes the `symbols` field. -/
def StorageOpt.writes_symbols : StorageOpt → Bool
  | StorageOpt.symbol _ => true
  | StorageOpt.symbols _ _ => true
  | _ => false

/-- Whether the option writes the `columns` field. -/
def StorageOpt.writes_columns : StorageOpt → Bool
  | StorageOpt.column _ => true
  | StorageOpt.columns _ _ => true
  | _ => false

/-- Fold a list of tagged storage options over a `StorageKey`,
in the order supplied (as `storage_key` does). -/
def applyOpts (opts : List StorageOpt) (sk : StorageKey) : StorageKey :=
  opts.foldl (fun k o => StorageOpt.toOption o k) sk

/-- One configuration call on an `AssocBuilder` (all chainable
methods other than the builder-converting `from` and the terminal
`descriptor`). -/
inductive AssocOp : Type where
  | unique : AssocOp
  | required : AssocOp
  | immutable : AssocOp
  | struct_tag (s : String) : AssocOp
  | field (f : String) : AssocOp
  | through (T name : String) : AssocOp
  | comment (c : String) : AssocOp
  | storage_key (opts : List StorageOpt) : AssocOp
  | annotations (l : List Annotation) : AssocOp

/-- Apply one reified configuration call to an `AssocBuilder`. -/
def AssocBuilder.applyOp (b : AssocBuilder) : AssocOp → AssocBuilder
  | AssocOp.unique => b.unique
  | AssocOp.required => b.required
  | AssocOp.immutable => b.immutable
  | AssocOp.struct_tag s => b.struct_tag s
  | AssocOp.field f => b.field f
  | AssocOp.through T n => b.through T n
  | AssocOp.comment c => b.comment c
  | AssocOp.storage_key opts => b.storage_key (opts.map StorageOpt.toOption)
  | AssocOp.annotations l => AssocBuilder.annotations b l

/-- Apply a sequence of configuration calls, left to right. -/
def AssocBuilder.applyOps (b : AssocBuilder) (ops : List AssocOp) : AssocBuilder :=
  ops.foldl AssocBuilder.applyOp b

/-- One configuration call on an `InverseBuilder` (all chainable
methods other than the terminal `descriptor`). -/
inductive InverseOp : Type where
  | ref_ (r : String) : InverseOp
  | unique : InverseOp
  | required : InverseOp
  | immutable : InverseOp
  | struct_tag (s : String) : InverseOp
  | comment (c : String) : InverseOp
  | field (f : String) : InverseOp
  | through (T name : String) : InverseOp
  | annotations (l : List Annotation) : InverseOp

/-- Apply one reified configuration call to an `InverseBuilder`. -/
def InverseBuilder.applyOp (b : InverseBuilder) : InverseOp → InverseBuilder
  | InverseOp.ref_ r => b.ref_ r
  | InverseOp.unique => b.unique
  | InverseOp.required => b.required
  | InverseOp.immutable => b.immutable
  | InverseOp.struct_tag s => b.struct_tag s
  | InverseOp.comment c => b.comment c
  | InverseOp.field f => b.field f
  | InverseOp.through T n => b.through T n
  | InverseOp.annotations l => InverseBuilder.annotations b l

/-- Apply a sequence of configuration calls, left to right. -/
def InverseBuilder.applyOps (b : InverseBuilder) (ops : List InverseOp) : InverseBuilder :=
  ops.foldl InverseBuilder.applyOp b

/-- Apply a sequence of `storage_key(...)` calls, each with its own
batch of options, left to right. -/
def AssocBuilder.apply_storage_batches (b : AssocBuilder) (batches : List (List StorageOpt)) : AssocBuilder :=
  batches.foldl (fun bl batch => bl.storage_key (batch.map StorageOpt.toOption)) b

/-! Helper lemmas. -/

theorem Descriptor.map_core_core (f : DescriptorCore → DescriptorCore) (d : Descriptor) :
    (d.map_core f).core = f d.core := by
  cases d
  rfl

theorem Descriptor.map_core_ref (f : DescriptorCore → DescriptorCore) (d : Descriptor) :
    (d.map_core f).ref_ = d.ref_ := by
  cases d
  rfl

/-- No `AssocBuilder` configuration call changes the `inverse` flag. -/
theorem assoc_applyOp_inverse (b : AssocBuilder) (op : AssocOp) :
    (b.applyOp op).desc.inverse = b.desc.inverse := by
  cases op <;>
    simp [AssocBuilder.applyOp, AssocBuilder.unique, AssocBuilder.required,
      AssocBuilder.immutable, AssocBuilder.struct_tag, AssocBuilder.field,
      AssocBuilder.through, AssocBuilder.comment, AssocBuilder.storage_key,
      AssocBuilder.annotations, Descriptor.inverse, Descriptor.map_core_core]

theorem assoc_applyOps_inverse (ops : List AssocOp) (b : AssocBuilder) :
    (b.applyOps ops).desc.inverse = b.desc.inverse := by
  induction ops generalizing b with
  | nil => rfl
  | cons op ops ih =>
    show ((b.applyOp op).applyOps ops).desc.inverse = b.desc.inverse
    rw [ih, assoc_applyOp_inverse]

/-- No `InverseBuilder` configuration call changes the `inverse` flag. -/
theorem inv_applyOp_inverse (b : InverseBuilder) (op : InverseOp) :
    (b.applyOp op).desc.inverse = b.desc.inverse := by
  cases op <;>
    simp [InverseBuilder.applyOp, InverseBuilder.ref_, InverseBuilder.unique,
      InverseBuilder.required, InverseBuilder.immutable, InverseBuilder.struct_tag,
      InverseBuilder.comment, InverseBuilder.field, InverseBuilder.through,
      InverseBuilder.annotations, Descriptor.inverse, Descriptor.map_core_core]

theorem inv_applyOps_inverse (ops : List InverseOp) (b : InverseBuilder) :
    (b.applyOps ops).desc.inverse = b.desc.inverse := by
  induction ops generalizing b with
  | nil => rfl
  | cons op ops ih =>
    show ((b.applyOp op).applyOps ops).desc.inverse = b.desc.inverse
    rw [ih, inv_applyOp_inverse]

/-- No `AssocBuilder` configuration call changes the `ref_` field. -/
theorem assoc_applyOp_ref (b : AssocBuilder) (op : AssocOp) :
    (b.applyOp op).desc.ref_ = b.desc.ref_ := by
  cases op <;>
    simp [AssocBuilder.applyOp, AssocBuilder.unique, AssocBuilder.required,
      AssocBuilder.immutable, AssocBuilder.struct_tag, AssocBuilder.field,
      AssocBuilder.through, AssocBuilder.comment, AssocBuilder.storage_key,
      AssocBuilder.annotations, Descriptor.map_core_ref]

theorem assoc_applyOps_ref (ops : List AssocOp) (b : AssocBuilder) :
    (b.applyOps ops).desc.ref_ = b.desc.ref_ := by
  induction ops generalizing b with
  | nil => rfl
  | cons op ops ih =>
    show ((b.applyOp op).applyOps ops).desc.ref_ = b.desc.ref_
    rw [ih, assoc_applyOp_ref]

/-- No `InverseBuilder` configuration call changes the `ref_` field. -/
theorem InverseBuilder.applyOp_ref (b : InverseBuilder) (op : InverseOp) :
    (b.applyOp op).desc.ref_ = b.desc.ref_ := by
  cases op <;>
    simp [InverseBuilder.applyOp, InverseBuilder.ref_, InverseBuilder.unique,
      InverseBuilder.required, InverseBuilder.immutable, InverseBuilder.struct_tag,
      InverseBuilder.comment, InverseBuilder.field, InverseBuilder.through,
      InverseBuilder.annotations, Descriptor.map_core_ref]

theorem InverseBuilder.applyOps_ref (ops : List InverseOp) (b : InverseBuilder) :
    (b.applyOps ops).desc.ref_ = b.desc.ref_ := by
  induction ops generalizing b with
  | nil => rfl
  | cons op ops ih =>
    show ((b.applyOp op).applyOps ops).desc.ref_ = b.desc.ref_
    rw [ih, InverseBuilder.applyOp_ref]

/-! Claim theorems. -/

/-- C1: for every type parameter `T` and names `n1`, `n2`, the chain
`to::<T>(n1).from(n2).descriptor()` yields a descriptor whose `name`
is `n2`, whose `ref` is `Some`, and whose embedded ref descriptor's
`name` is `n1`. -/
theorem to_from_descriptor_names (T n1 n2 : String) :
    ((((«to» T n1).from_ n2).descriptor.name = n2) ∧
      ((((«to» T n1).from_ n2).descriptor.ref_).isSome = true)) ∧
      Option.map Descriptor.name (((«to» T n1).from_ n2).descriptor.ref_) = some n1 :=
  ⟨⟨rfl, rfl⟩, rfl⟩

/-- C2: in a paired `to(...).from(...)` chain the two `unique` flags
are independent: with `au` the choice of calling `unique()` on the
association side before `.from(...)` and `iu` the choice of calling
it on the inverse side after, the final descriptor's own `unique`
equals `iu` and its `ref` descriptor's `unique` equals `au`,
covering all four rows of the cardinality table. -/
theorem unique_flags_independent (T n1 n2 : String) (au iu : Bool) :
    Descriptor.unique (InverseBuilder.descriptor
        (cond iu
          (InverseBuilder.unique
            (AssocBuilder.from_ (cond au (AssocBuilder.unique («to» T n1)) («to» T n1)) n2))
          (AssocBuilder.from_ (cond au (AssocBuilder.unique («to» T n1)) («to» T n1)) n2))) = iu ∧
      Option.map Descriptor.unique (Descriptor.ref_ (InverseBuilder.descriptor
        (cond iu
          (InverseBuilder.unique
            (AssocBuilder.from_ (cond au (AssocBuilder.unique («to» T n1)) («to» T n1)) n2))
          (AssocBuilder.from_ (cond au (AssocBuilder.unique («to» T n1)) («to» T n1)) n2)))) = some au := by
  cases au <;> cases iu <;> exact ⟨rfl, rfl⟩

/-- C9: `Annotation::merge` implements argument-wins override: the
result's `struct_tag` is the argument's `struct_tag`. -/
theorem merge_argument_wins (a b : Annotation) :
    ( Annotation.merge a b).struct_tag = b.struct_tag ∧
      Annotation.merge a b = { struct_tag := b.struct_tag } :=
  ⟨rfl, rfl⟩

/-- C10: after any configuration of the association builder,
`from(n2)` produces an inverse descriptor whose only non-default
fields are `name` (= `n2`), `type_` (copied from the association),
`inverse` (= true) and `ref_` (= the captured association
descriptor); everything configured before `.from(...)` lives only
inside `ref_`. -/
theorem assoc_from_resets_descriptor (T n1 n2 : String) (aops : List AssocOp) :
    let b := («to» T n1).applyOps aops
    let d := (b.from_ n2).descriptor
    (d.name = n2 ∧ d.type_ = b.desc.type_ ∧ d.inverse = true ∧ d.ref_ = some b.desc) ∧
      (d.tag = "" ∧ d.field = "" ∧ d.ref_name = "" ∧ d.through = none) ∧
      (d.unique = false ∧ d.required = false ∧ d.immutable = false) ∧
      (d.storage_key = none ∧ Descriptor.annotations d = [] ∧ d.comment = "") :=
  ⟨⟨rfl, rfl, rfl, rfl⟩, ⟨rfl, rfl, rfl, rfl⟩, ⟨rfl, rfl, rfl⟩, ⟨rfl, rfl, rfl⟩⟩

/-- C3: `ref` is `Some` only on the `to(...).from(...)` path: both
non-`from` chain families end with `ref_ = none` — a descriptor
built from the standalone `from::<T>(name)` constructor followed by
any sequence of inverse-builder configuration calls, and a
descriptor built from `to::<T>(name)` followed by any sequence of
association-builder configuration calls — with `ref_name` settable
as a textual link via the `ref` call; a chain through
`AssocBuilder::from` has `ref_` present. -/
theorem ref_some_only_via_assoc_from (T n r n1 n2 : String)
    (iops : List InverseOp) (aops : List AssocOp) :
    (((from_ T n).applyOps iops).descriptor.ref_ = none ∧
      ((«to» T n).applyOps aops).descriptor.ref_ = none ∧
      (((from_ T n).applyOps iops).ref_ r).descriptor.ref_name = r) ∧
      (((((«to» T n1).applyOps aops).from_ n2).applyOps iops).descriptor.ref_).isSome = true := by
  refine ⟨⟨?_, ?_, ?_⟩, ?_⟩
  · show ((from_ T n).applyOps iops).desc.ref_ = none
    rw [InverseBuilder.applyOps_ref]
    rfl
  · show ((«to» T n).applyOps aops).desc.ref_ = none
    rw [assoc_applyOps_ref]
    rfl
  · show (((from_ T n).applyOps iops).ref_ r).desc.ref_name = r
    simp [InverseBuilder.ref_, Descriptor.ref_name, Descriptor.map_core_core]
  · show (((((«to» T n1).applyOps aops).from_ n2).applyOps iops).desc.ref_).isSome = true
    rw [InverseBuilder.applyOps_ref]
    rfl

/-- C4: every chain of configuration calls starting from
`to::<T>(name)` yields `descriptor().inverse = false`; every chain
starting from `from::<T>(name)` or from `AssocBuilder::from(n2)`
yields `descriptor().inverse = true`. -/
theorem inverse_flag_by_builder (T n n2 : String) (aops : List AssocOp)
    (iops iops2 : List InverseOp) :
    ((«to» T n).applyOps aops).descriptor.inverse = false ∧
      ((from_ T n).applyOps iops).descriptor.inverse = true ∧
      ((((«to» T n).applyOps aops).from_ n2).applyOps iops2).descriptor.inverse = true := by
  refine ⟨?_, ?_, ?_⟩
  · show ((«to» T n).applyOps aops).desc.inverse = false
    rw [assoc_applyOps_inverse]
    rfl
  · show ((from_ T n).applyOps iops).desc.inverse = true
    rw [inv_applyOps_inverse]
    rfl
  · show ((((«to» T n).applyOps aops).from_ n2).applyOps iops2).desc.inverse = true
    rw [inv_applyOps_inverse]
    rfl

/-- C8: calling `annotations` twice appends rather than replaces,
on both builders: starting from an arbitrary builder the result is
the old collection followed by both argument lists in call order,
and starting from a fresh constructor the result is exactly
`l1 ++ l2`, of length `l1.length + l2.length`. -/
theorem annotations_calls_append (T n m : String) (l1 l2 : List Annotation)
    (ba : AssocBuilder) (bi : InverseBuilder) :
    (Descriptor.annotations
        ( AssocBuilder.annotations ( AssocBuilder.annotations ba l1) l2).desc =
        Descriptor.annotations ba.desc ++ l1 ++ l2 ∧
      Descriptor.annotations
        ( InverseBuilder.annotations ( InverseBuilder.annotations bi l1) l2).desc =
        Descriptor.annotations bi.desc ++ l1 ++ l2) ∧
      (Descriptor.annotations
          ( AssocBuilder.annotations ( AssocBuilder.annotations («to» T n) l1) l2).descriptor =
          l1 ++ l2 ∧
        Descriptor.annotations
          ( InverseBuilder.annotations ( InverseBuilder.annotations (from_ T m) l1) l2).descriptor =
          l1 ++ l2) ∧
      (Descriptor.annotations
          ( AssocBuilder.annotations ( AssocBuilder.annotations («to» T n) l1) l2).descriptor).length =
          l1.length + l2.length ∧
      (Descriptor.annotations
          ( InverseBuilder.annotations ( InverseBuilder.annotations (from_ T m) l1) l2).descriptor).length =
          l1.length + l2.length := by
  refine ⟨⟨?_, ?_⟩, ⟨rfl, rfl⟩, ?_, ?_⟩
  · simp [AssocBuilder.annotations, Descriptor.annotations, Descriptor.map_core_core]
  · simp [InverseBuilder.annotations, Descriptor.annotations, Descriptor.map_core_core]
  · show (l1 ++ l2).length = l1.length + l2.length
    simp
  · show (l1 ++ l2).length = l1.length + l2.length
    simp

/-- A call `storage_key(opts)` stores the fold of `opts` over the builder's
accumulated (or default) key. -/
theorem AssocBuilder.storage_key_desc (b : AssocBuilder) (opts : List StorageOpt) :
    (b.storage_key (opts.map StorageOpt.toOption)).desc.storage_key =
      some (applyOpts opts b.start_key) := by
  simp [AssocBuilder.storage_key, Descriptor.storage_key, Descriptor.map_core_core,
    applyOpts, List.foldl_map]

/-- After one `storage_key(opts)` call, the next call's accumulator
starts from the fold of `opts`. -/
theorem AssocBuilder.start_key_after (b : AssocBuilder) (opts : List StorageOpt) :
    (b.storage_key (opts.map StorageOpt.toOption)).start_key = applyOpts opts b.start_key := by
  rw [AssocBuilder.start_key, AssocBuilder.storage_key_desc]

/-- Options that do not write `table` leave `table` unchanged. -/
theorem applyOpts_table_frame (opts : List StorageOpt) :
    ∀ sk : StorageKey, opts.all (fun o => ! StorageOpt.writes_table o) = true →
      (applyOpts opts sk).table = sk.table := by
  induction opts with
  | nil => intro sk _; rfl
  | cons o os ih =>
    intro sk h
    rw [List.all_cons, Bool.and_eq_true] at h
    show (applyOpts os (StorageOpt.toOption o sk)).table = sk.table
    rw [ih _ h.2]
    cases o with
    | table n => exact absurd h.1 (by simp [StorageOpt.writes_table])
    | symbol s => rfl
    | symbols t f => rfl
    | column n => rfl
    | columns t f => rfl

/-- Options that do not write `symbols` leave `symbols` unchanged. -/
theorem applyOpts_symbols_frame (opts : List StorageOpt) :
    ∀ sk : StorageKey, opts.all (fun o => ! StorageOpt.writes_symbols o) = true →
      (applyOpts opts sk).symbols = sk.symbols := by
  induction opts with
  | nil => intro sk _; rfl
  | cons o os ih =>
    intro sk h
    rw [List.all_cons, Bool.and_eq_true] at h
    show (applyOpts os (StorageOpt.toOption o sk)).symbols = sk.symbols
    rw [ih _ h.2]
    cases o with
    | table n => rfl
    | symbol s => exact absurd h.1 (by simp [StorageOpt.writes_symbols])
    | symbols t f => exact absurd h.1 (by simp [StorageOpt.writes_symbols])
    | column n => rfl
    | columns t f => rfl

/-- Options that do not write `columns` leave `columns` unchanged. -/
theorem applyOpts_columns_frame (opts : List StorageOpt) :
    ∀ sk : StorageKey, opts.all (fun o => ! StorageOpt.writes_columns o) = true →
      (applyOpts opts sk).columns = sk.columns := by
  induction opts with
  | nil => intro sk _; rfl
  | cons o os ih =>
    intro sk h
    rw [List.all_cons, Bool.and_eq_true] at h
    show (applyOpts os (StorageOpt.toOption o sk)).columns = sk.columns
    rw [ih _ h.2]
    cases o with
    | table n => rfl
    | symbol s => rfl
    | symbols t f => rfl
    | column n => exact absurd h.1 (by simp [StorageOpt.writes_columns])
    | columns t f => exact absurd h.1 (by simp [StorageOpt.writes_columns])

/-- C5: applying `storage_key` with the options `table(t)`,
`columns(a,b)`, `symbols(c,d)` in any of the six possible orders
produces a descriptor whose `storage_key` is `Some` with
`table = t`, `columns = [a, b]` and `symbols = [c, d]`. -/
theorem storage_key_roundtrip_any_order (T n t a b c d : String) (opts : List StorageOption)
    (h : opts = [table t, columns a b, symbols c d] ∨
      opts = [table t, symbols c d, columns a b] ∨
      opts = [columns a b, table t, symbols c d] ∨
      opts = [columns a b, symbols c d, table t] ∨
      opts = [symbols c d, table t, columns a b] ∨
      opts = [symbols c d, columns a b, table t]) :
    ((«to» T n).storage_key opts).descriptor.storage_key =
      some { table := t, symbols := [c, d], columns := [a, b] } := by
  rcases h with rfl | rfl | rfl | rfl | rfl | rfl <;> rfl

/-- Witness for C5: a concrete order (`symbols` first) and concrete
names evaluate to exactly the claimed `StorageKey`. -/
theorem storage_key_roundtrip_witness :
    ((«to» "crate::User" "groups").storage_key
        [symbols "s1" "s2", table "t", columns "a" "b"]).descriptor.storage_key =
      some { table := "t", symbols := ["s1", "s2"], columns := ["a", "b"] } :=
  storage_key_roundtrip_any_order "crate::User" "groups" "t" "a" "b" "s1" "s2" _
    (Or.inr (Or.inr (Or.inr (Or.inr (Or.inl rfl)))))

/-- C6: a second `storage_key` call folds its options into the key
accumulated by the first call rather than replacing it: the stored
key is the fold of the second batch over the fold of the first, and
each of `table`/`symbols`/`columns` keeps its previous value
whenever no option of the second batch writes that field. -/
theorem storage_key_second_call_merges (b : AssocBuilder) (opts1 opts2 : List StorageOpt) :
    ((b.storage_key (opts1.map StorageOpt.toOption)).storage_key
        (opts2.map StorageOpt.toOption)).descriptor.storage_key =
      some (applyOpts opts2 (applyOpts opts1 b.start_key)) ∧
    (opts2.all (fun o => ! StorageOpt.writes_table o) = true →
      (applyOpts opts2 (applyOpts opts1 b.start_key)).table =
        (applyOpts opts1 b.start_key).table) ∧
    (opts2.all (fun o => ! StorageOpt.writes_symbols o) = true →
      (applyOpts opts2 (applyOpts opts1 b.start_key)).symbols =
        (applyOpts opts1 b.start_key).symbols) ∧
    (opts2.all (fun o => ! StorageOpt.writes_columns o) = true →
      (applyOpts opts2 (applyOpts opts1 b.start_key)).columns =
        (applyOpts opts1 b.start_key).columns) := by
  refine ⟨?_, applyOpts_table_frame _ _, applyOpts_symbols_frame _ _,
    applyOpts_columns_frame _ _⟩
  show ((b.storage_key (opts1.map StorageOpt.toOption)).storage_key
      (opts2.map StorageOpt.toOption)).desc.storage_key = _
  rw [AssocBuilder.storage_key_desc, AssocBuilder.start_key_after]

/-- Witness for C6: first call sets `table` and `columns`, second
call sets only `symbols`; the key merges, and `table`/`columns`
survive the second call. -/
theorem storage_key_merge_witness :
    (((«to» "crate::Group" "users").storage_key
            ([StorageOpt.table "t", StorageOpt.columns "a" "b"].map StorageOpt.toOption)).storage_key
          ([StorageOpt.symbols "s1" "s2"].map StorageOpt.toOption)).descriptor.storage_key =
      some (applyOpts [StorageOpt.symbols "s1" "s2"]
        (applyOpts [StorageOpt.table "t", StorageOpt.columns "a" "b"]
          (AssocBuilder.start_key («to» "crate::Group" "users")))) ∧
    (applyOpts [StorageOpt.symbols "s1" "s2"]
        (applyOpts [StorageOpt.table "t", StorageOpt.columns "a" "b"]
          (AssocBuilder.start_key («to» "crate::Group" "users")))).table =
      (applyOpts [StorageOpt.table "t", StorageOpt.columns "a" "b"]
        (AssocBuilder.start_key («to» "crate::Group" "users"))).table ∧
    (applyOpts [StorageOpt.symbols "s1" "s2"]
        (applyOpts [StorageOpt.table "t", StorageOpt.columns "a" "b"]
          (AssocBuilder.start_key («to» "crate::Group" "users")))).columns =
      (applyOpts [StorageOpt.table "t", StorageOpt.columns "a" "b"]
        (AssocBuilder.start_key («to» "crate::Group" "users"))).columns := by
  have h := storage_key_second_call_merges («to» "crate::Group" "users")
    [StorageOpt.table "t", StorageOpt.columns "a" "b"] [StorageOpt.symbols "s1" "s2"]
  exact ⟨h.1, h.2.1 (by decide), h.2.2.2 (by decide)⟩

/-- After any option sequence, `symbols` is either untouched, or
`[s]` from a `symbol` option in the sequence, or `[t, f]` from a
`symbols` option in the sequence. -/
theorem applyOpts_symbols_cases (opts : List StorageOpt) :
    ∀ sk : StorageKey, (applyOpts opts sk).symbols = sk.symbols ∨
      (∃ s, StorageOpt.symbol s ∈ opts ∧ (applyOpts opts sk).symbols = [s]) ∨
      (∃ t f, StorageOpt.symbols t f ∈ opts ∧ (applyOpts opts sk).symbols = [t, f]) := by
  induction opts with
  | nil => intro _; exact Or.inl rfl
  | cons o os ih =>
    intro sk
    rcases ih (StorageOpt.toOption o sk) with h | ⟨s, hs, hv⟩ | ⟨t, f, hm, hv⟩
    · cases o with
      | symbol s => exact Or.inr (Or.inl ⟨s, List.mem_cons_self _ _, by rw [show applyOpts (StorageOpt.symbol s :: os) sk = applyOpts os (StorageOpt.toOption (StorageOpt.symbol s) sk) from rfl, h]; rfl⟩)
      | symbols t f => exact Or.inr (Or.inr ⟨t, f, List.mem_cons_self _ _, by rw [show applyOpts (StorageOpt.symbols t f :: os) sk = applyOpts os (StorageOpt.toOption (StorageOpt.symbols t f) sk) from rfl, h]; rfl⟩)
      | table n => exact Or.inl (by rw [show applyOpts (StorageOpt.table n :: os) sk = applyOpts os (StorageOpt.toOption (StorageOpt.table n) sk) from rfl, h]; rfl)
      | column n => exact Or.inl (by rw [show applyOpts (StorageOpt.column n :: os) sk = applyOpts os (StorageOpt.toOption (StorageOpt.column n) sk) from rfl, h]; rfl)
      | columns t f => exact Or.inl (by rw [show applyOpts (StorageOpt.columns t f :: os) sk = applyOpts os (StorageOpt.toOption (StorageOpt.columns t f) sk) from rfl, h]; rfl)
    · exact Or.inr (Or.inl ⟨s, List.mem_cons_of_mem _ hs, hv⟩)
    · exact Or.inr (Or.inr ⟨t, f, List.mem_cons_of_mem _ hm, hv⟩)

/-- After any option sequence, `columns` is either untouched, or
`[n]` from a `column` option in the sequence, or `[t, f]` from a
`columns` option in the sequence. -/
theorem applyOpts_columns_cases (opts : List StorageOpt) :
    ∀ sk : StorageKey, (applyOpts opts sk).columns = sk.columns ∨
      (∃ s, StorageOpt.column s ∈ opts ∧ (applyOpts opts sk).columns = [s]) ∨
      (∃ t f, StorageOpt.columns t f ∈ opts ∧ (applyOpts opts sk).columns = [t, f]) := by
  induction opts with
  | nil => intro _; exact Or.inl rfl
  | cons o os ih =>
    intro sk
    rcases ih (StorageOpt.toOption o sk) with h | ⟨s, hs, hv⟩ | ⟨t, f, hm, hv⟩
    · cases o with
      | column s => exact Or.inr (Or.inl ⟨s, List.mem_cons_self _ _, by rw [show applyOpts (StorageOpt.column s :: os) sk = applyOpts os (StorageOpt.toOption (StorageOpt.column s) sk) from rfl, h]; rfl⟩)
      | columns t f => exact Or.inr (Or.inr ⟨t, f, List.mem_cons_self _ _, by rw [show applyOpts (StorageOpt.columns t f :: os) sk = applyOpts os (StorageOpt.toOption (StorageOpt.columns t f) sk) from rfl, h]; rfl⟩)
      | table n => exact Or.inl (by rw [show applyOpts (StorageOpt.table n :: os) sk = applyOpts os (StorageOpt.toOption (StorageOpt.table n) sk) from rfl, h]; rfl)
      | symbol n => exact Or.inl (by rw [show applyOpts (StorageOpt.symbol n :: os) sk = applyOpts os (StorageOpt.toOption (StorageOpt.symbol n) sk) from rfl, h]; rfl)
      | symbols t f => exact Or.inl (by rw [show applyOpts (StorageOpt.symbols t f :: os) sk = applyOpts os (StorageOpt.toOption (StorageOpt.symbols t f) sk) from rfl, h]; rfl)
    · exact Or.inr (Or.inl ⟨s, List.mem_cons_of_mem _ hs, hv⟩)
    · exact Or.inr (Or.inr ⟨t, f, List.mem_cons_of_mem _ hm, hv⟩)

/-- Length/provenance bound for `symbols`, starting from the
default key. -/
theorem applyOpts_symbols_bound (opts : List StorageOpt) :
    (applyOpts opts {}).symbols.length ≤ 2 ∧
      ((applyOpts opts {}).symbols.length = 2 →
        ∃ t f, StorageOpt.symbols t f ∈ opts ∧ (applyOpts opts {}).symbols = [t, f]) := by
  rcases applyOpts_symbols_cases opts {} with h | ⟨s, _, hv⟩ | ⟨t, f, hm, hv⟩
  · rw [h]
    exact ⟨by simp, by intro h2; simp at h2⟩
  · rw [hv]
    exact ⟨by simp, by intro h2; simp at h2⟩
  · rw [hv]
    exact ⟨by simp, fun _ => ⟨t, f, hm, rfl⟩⟩

/-- Length/provenance bound for `columns`, starting from the
default key. -/
theorem applyOpts_columns_bound (opts : List StorageOpt) :
    (applyOpts opts {}).columns.length ≤ 2 ∧
      ((applyOpts opts {}).columns.length = 2 →
        ∃ t f, StorageOpt.columns t f ∈ opts ∧ (applyOpts opts {}).columns = [t, f]) := by
  rcases applyOpts_columns_cases opts {} with h | ⟨s, _, hv⟩ | ⟨t, f, hm, hv⟩
  · rw [h]
    exact ⟨by simp, by intro h2; simp at h2⟩
  · rw [hv]
    exact ⟨by simp, by intro h2; simp at h2⟩
  · rw [hv]
    exact ⟨by simp, fun _ => ⟨t, f, hm, rfl⟩⟩

/-- A non-empty sequence of `storage_key` calls stores the fold of
all batches, in order, over the builder's starting accumulator. -/
theorem apply_storage_batches_key (batches : List (List StorageOpt)) :
    ∀ b : AssocBuilder, batches ≠ [] →
      (b.apply_storage_batches batches).desc.storage_key =
        some (applyOpts batches.flatten b.start_key) := by
  induction batches with
  | nil => intro b h; exact absurd rfl h
  | cons batch rest ih =>
    intro b _
    show ((b.storage_key (batch.map StorageOpt.toOption)).apply_storage_batches rest).desc.storage_key = _
    cases rest with
    | nil =>
      show (b.storage_key (batch.map StorageOpt.toOption)).desc.storage_key = _
      rw [AssocBuilder.storage_key_desc]
      simp [applyOpts, List.flatten]
    | cons r rs =>
      rw [ih _ (by simp), AssocBuilder.start_key_after]
      simp [applyOpts, List.flatten, List.foldl_append]

/-- C7: for every sequence of `storage_key` calls on an association
builder, any stored `StorageKey` has at most two `symbols` and at
most two `columns`; a two-element list can only come from a
`symbols`/`columns` option in some batch, holding its `(to, from)`
arguments in that order. -/
theorem storage_key_symbols_columns_bounds (batches : List (List StorageOpt)) (T n : String)
    (sk : StorageKey)
    (h : ((«to» T n).apply_storage_batches batches).descriptor.storage_key = some sk) :
    sk.symbols.length ≤ 2 ∧ sk.columns.length ≤ 2 ∧
      (sk.symbols.length = 2 →
        ∃ t f, (∃ batch ∈ batches, StorageOpt.symbols t f ∈ batch) ∧ sk.symbols = [t, f]) ∧
      (sk.columns.length = 2 →
        ∃ t f, (∃ batch ∈ batches, StorageOpt.columns t f ∈ batch) ∧ sk.columns = [t, f]) := by
  cases batches with
  | nil =>
    exact absurd h (by simp [AssocBuilder.apply_storage_batches, AssocBuilder.descriptor,
      «to», Descriptor.storage_key, Descriptor.core])
  | cons batch rest =>
    have hk := apply_storage_batches_key (batch :: rest) («to» T n) (by simp)
    have hst : AssocBuilder.start_key («to» T n) = {} := rfl
    rw [hst] at hk
    have hsk : sk = applyOpts (batch :: rest).flatten {} := Option.some.inj (h.symm.trans hk)
    subst hsk
    obtain ⟨hs1, hs2⟩ := applyOpts_symbols_bound (batch :: rest).flatten
    obtain ⟨hc1, hc2⟩ := applyOpts_columns_bound (batch :: rest).flatten
    refine ⟨hs1, hc1, ?_, ?_⟩
    · intro hlen
      obtain ⟨t, f, hm, hv⟩ := hs2 hlen
      obtain ⟨li, hli, hai⟩ := List.mem_flatten.mp hm
      exact ⟨t, f, ⟨li, hli, hai⟩, hv⟩
    · intro hlen
      obtain ⟨t, f, hm, hv⟩ := hc2 hlen
      obtain ⟨li, hli, hai⟩ := List.mem_flatten.mp hm
      exact ⟨t, f, ⟨li, hli, hai⟩, hv⟩

/-- Witness for C7: one batch setting `symbols("x","y")` and
`column("c")` yields a key within the bounds, whose two-element
`symbols` list is exactly the `(to, from)` pair of the option. -/
theorem storage_key_bounds_witness :
    ({ table := "", symbols := ["x", "y"], columns := ["c"] } : StorageKey).symbols.length ≤ 2 ∧
      ({ table := "", symbols := ["x", "y"], columns := ["c"] } : StorageKey).columns.length ≤ 2 ∧
      ∃ t f, (∃ batch ∈ [[StorageOpt.symbols "x" "y", StorageOpt.column "c"]],
          StorageOpt.symbols t f ∈ batch) ∧
        ({ table := "", symbols := ["x", "y"], columns := ["c"] } : StorageKey).symbols = [t, f] := by
  have h := storage_key_symbols_columns_bounds
    [[StorageOpt.symbols "x" "y", StorageOpt.column "c"]] "crate::User" "e"
    { table := "", symbols := ["x", "y"], columns := ["c"] } rfl
  exact ⟨h.1, h.2.1, h.2.2.1 rfl⟩

end Rent
